import Mathlib

/-!
Verification of the `rag-chatbot` backend query orchestrator.

This file gives a shallow embedding of `backend/ai_generator.py`
(`AIGenerator.generate_response` and `AIGenerator._process_tool_chain`)
and of the tool-registry operations described in the specification
(`ToolManager.execute_tool`, `get_last_sources`, `reset_sources` — the
file `search_tools.py` itself is not part of the sources given, only its
tests are, so those operations are modelled from the spec).

The LLM client is modelled as an oracle `Nat → ModelResponse` giving the
response to the n-th `client.messages.create` call (counting from 0).
A run is recorded as an explicit trace of events: each model call with
the API parameters it was given, and each tool execution with its name
and arguments, in the order they happen.  Machine behaviour that would
raise in Python (attribute access `.text` on a non-text block, indexing
an empty content list) is modelled with `Option`.
-/

namespace RagChatbot

/-- A tool schema, as carried in the `tools` API parameter.  The generator
treats schemas as opaque values: the Python code only tests the list for
truthiness and passes it through, so we model a schema as an opaque string. -/
abbrev ToolSchema := String

/-- The tool manager as seen by `AIGenerator`: `execute_tool(name, **kwargs)`
returning a text result.  Keyword arguments are modelled as an association
list of argument name to value. -/
abbrev ToolFun := String → List (String × String) → String

/-- A content block of a model response or of a constructed message:
`text` blocks, `tool_use` blocks (with provider-generated `id`, tool `name`
and keyword `input`), and the `tool_result` dictionaries the generator
builds (`tool_use_id` plus string content). -/
inductive ContentBlock where
  | text (value : String)
  | toolUse (id name : String) (input : List (String × String))
  | toolResult (tool_use_id : String) (content : String)
deriving DecidableEq

/-- Message content: either a plain string (the initial user query) or a
sequence of content blocks (assistant content echoed back, or the list of
`tool_result` dictionaries). -/
inductive MessageContent where
  | str (s : String)
  | blocks (bs : List ContentBlock)
deriving DecidableEq

/-- One entry of the `messages` list sent to the API. -/
structure Message where
  role : String
  content : MessageContent
deriving DecidableEq

/-- A model response: its `stop_reason` and its `content` block list. -/
structure ModelResponse where
  stop_reason : String
  content : List ContentBlock
deriving DecidableEq

/-- The parameters of one `client.messages.create` call that the claims are
about: the `messages` list, the `system` string, the `tools` key (`none`
when the key is absent) and whether `tool_choice : auto` was set.
The constant `base_params` entries (model name, temperature, max_tokens)
carry no information relevant to any claim and are omitted. -/
structure ApiCall where
  messages : List Message
  system : String
  toolsParam : Option (List ToolSchema)
  toolChoiceAuto : Bool
deriving DecidableEq

/-- An observable event of a run: a model call with its parameters, or a
tool execution through the tool manager with its name, arguments and
returned text. -/
inductive Event where
  | modelCall (params : ApiCall)
  | toolExec (name : String) (input : List (String × String)) (result : String)
deriving DecidableEq

/-- The model calls of an event trace, in order. -/
def modelCalls (es : List Event) : List ApiCall :=
  es.filterMap fun e =>
    match e with
    | Event.modelCall p => some p
    | Event.toolExec _ _ _ => none

/-- The tool executions of an event trace (name and arguments), in order. -/
def toolExecs (es : List Event) : List (String × List (String × String)) :=
  es.filterMap fun e =>
    match e with
    | Event.modelCall _ => none
    | Event.toolExec n i _ => some (n, i)

/-- The `.text` attribute of a content block: `some` for a text block,
`none` (Python `AttributeError`) otherwise. -/
def blockText : ContentBlock → Option String
  | ContentBlock.text v => some v
  | ContentBlock.toolUse _ _ _ => none
  | ContentBlock.toolResult _ _ => none

/-- `response.content[0].text` as the Python code computes it: the `.text`
attribute of the first content block; `none` models the `IndexError` /
`AttributeError` cases. -/
def firstContentText : List ContentBlock → Option String
  | [] => none
  | b :: _ => blockText b

/-- Whether a block is a `tool_use` block (`content_block.type == "tool_use"`). -/
def isToolUse : ContentBlock → Bool
  | ContentBlock.toolUse _ _ _ => true
  | ContentBlock.text _ => false
  | ContentBlock.toolResult _ _ => false

/-- `AIGenerator.SYSTEM_PROMPT` (the static system prompt of `ai_generator.py`). -/
def SYSTEM_PROMPT : String :=
  " You are an AI assistant specialized in course materials and educational content with access to comprehensive search tools for course information.\n\nSearch Tool Usage:\n- Use the search tool **only** for questions about specific course content or detailed educational materials\n- You may use up to 2 tool calls per query if needed to fully answer the question\n- Synthesize search results into accurate, fact-based responses\n- If search yields no results, state this clearly without offering alternatives\n\nCourse Outline Tool Usage:\n- Use the outline tool when users ask about course structure, outline, table of contents, or lesson lists\n- Returns course title, course link, and complete lesson list with lesson numbers and titles\n- Use this instead of search when the user wants to know what lessons a course contains or asks for an overview\n\nSequential Tool Use:\n- For complex queries, you may use one tool, review the results, then use another tool\n- Example: Get a course outline first, then search for specific content based on what you learned\n- Each tool call helps build context for a complete answer\n\nResponse Protocol:\n- **General knowledge questions**: Answer using existing knowledge without searching\n- **Course-specific questions**: Search first, then answer\n- **No meta-commentary**:\n - Provide direct answers only — no reasoning process, search explanations, or question-type analysis\n - Do not mention \"based on the search results\"\n\n\nAll responses must be:\n1. **Brief, Concise and focused** - Get to the point quickly\n2. **Educational** - Maintain instructional value\n3. **Clear** - Use accessible language\n4. **Example-supported** - Include relevant examples when they aid understanding\nProvide only the direct answer to what was asked.\n"

/-- The `system_content` built by `generate_response`: the system prompt,
with the conversation history appended after it when the history is truthy
(Python `if conversation_history:` — `None` and the empty string are falsy). -/
def buildSystemContent (conversation_history : Option String) : String :=
  match conversation_history with
  | some h =>
      if h = "" then SYSTEM_PROMPT
      else SYSTEM_PROMPT ++ "\n\nPrevious conversation:\n" ++ h
  | none => SYSTEM_PROMPT

/-- The `api_params` of the first model call made by `generate_response`:
a single user message holding the raw query, the built system content, and
the `tools` / `tool_choice` keys added only when `tools` is truthy
(a non-empty list). -/
def firstApiParams (query : String) (conversation_history : Option String)
    (tools : List ToolSchema) : ApiCall :=
  ⟨[⟨"user", MessageContent.str query⟩],
   buildSystemContent conversation_history,
   if tools = [] then none else some tools,
   !tools.isEmpty⟩

/-- The tool-execution loop of `_process_tool_chain`: walk the response
content in order; for every `tool_use` block call
`tool_manager.execute_tool(block.name, **block.input)` and build one
`tool_result` dictionary carrying the block's `id`.  Returns the execution
events and the `tool_results` list, both in discovery order. -/
def runTools (tm : ToolFun) : List ContentBlock → List Event × List ContentBlock
  | [] => ([], [])
  | ContentBlock.toolUse id name input :: rest =>
      let result := tm name input
      let r := runTools tm rest
      (Event.toolExec name input result :: r.1,
       ContentBlock.toolResult id result :: r.2)
  | ContentBlock.text _ :: rest => runTools tm rest
  | ContentBlock.toolResult _ _ :: rest => runTools tm rest

/-- The messages list as `_process_tool_chain` extends it before the next
model call: the assistant's full response content is appended, then — only
when the collected `tool_results` list is non-empty — a single user-role
message holding the ordered tool results. -/
def chainMessages (tm : ToolFun) (response : ModelResponse)
    (messages : List Message) : List Message :=
  let messages1 := messages ++ [⟨"assistant", MessageContent.blocks response.content⟩]
  let ex := runTools tm response.content
  if ex.2 = [] then messages1
  else messages1 ++ [⟨"user", MessageContent.blocks ex.2⟩]

/-- The `next_params` of the model call `_process_tool_chain` makes: the
extended messages, the unchanged system content, and the `tools` /
`tool_choice : auto` keys added exactly when
`include_tools = current_round < max_rounds`. -/
def chainNextParams (tm : ToolFun) (system_content : String)
    (tools : List ToolSchema) (response : ModelResponse)
    (messages : List Message) (current_round max_rounds : Nat) : ApiCall :=
  ⟨chainMessages tm response messages, system_content,
   if current_round < max_rounds then some tools else none,
   decide (current_round < max_rounds)⟩

/-- `AIGenerator._process_tool_chain`, with an explicit structural gas
parameter.  The Python recursion recurses only while
`current_round < max_rounds` and increments `current_round` by one each
time, so its recursion depth from a state is exactly
`max_rounds - current_round`; the wrapper `processToolChain` below passes
that value as `gas`, which therefore never runs out before the Python
guard stops the recursion.  Returns the event trace of this invocation
(tool executions, then the next model call, then the events of any
recursive invocation) and the final returned text
(`next_response.content[0].text`, `none` modelling the attribute error).
The Python recursion guard is
`stop_reason == "tool_use" and include_tools and current_round < max_rounds`
with `include_tools = current_round < max_rounds`, i.e. the conjunction
written here. -/
def processToolChainAux (oracle : Nat → ModelResponse) (tm : ToolFun)
    (system_content : String) (tools : List ToolSchema) :
    Nat → ModelResponse → List Message → Nat → Nat → Nat →
    List Event × Option String
  | gas, response, messages, current_round, max_rounds, calls_made =>
    let next_params := chainNextParams tm system_content tools response
      messages current_round max_rounds
    let next_response := oracle calls_made
    match gas with
    | 0 =>
        ((runTools tm response.content).1 ++ [Event.modelCall next_params],
         firstContentText next_response.content)
    | gas' + 1 =>
        if next_response.stop_reason = "tool_use" ∧ current_round < max_rounds then
          let r := processToolChainAux oracle tm system_content tools gas'
            next_response (chainMessages tm response messages)
            (current_round + 1) max_rounds (calls_made + 1)
          ((runTools tm response.content).1 ++ Event.modelCall next_params :: r.1, r.2)
        else
          ((runTools tm response.content).1 ++ [Event.modelCall next_params],
           firstContentText next_response.content)

/-- `AIGenerator._process_tool_chain(response, messages, system_content,
tools, tool_manager, current_round, max_rounds)`, with `calls_made` the
number of model calls already made (used to index the oracle). -/
def processToolChain (oracle : Nat → ModelResponse) (tm : ToolFun)
    (system_content : String) (tools : List ToolSchema)
    (response : ModelResponse) (messages : List Message)
    (current_round max_rounds calls_made : Nat) : List Event × Option String :=
  processToolChainAux oracle tm system_content tools
    (max_rounds - current_round) response messages current_round max_rounds calls_made

/-- `AIGenerator.generate_response(query, conversation_history, tools,
tool_manager, max_rounds)`.  The first model call is made with
`firstApiParams`; when the response's `stop_reason` is `tool_use` and both
`tool_manager` and `tools` are truthy, control passes to
`_process_tool_chain` with `current_round = 1`; otherwise the first
response's `content[0].text` is returned directly. -/
def generate_response (oracle : Nat → ModelResponse) (query : String)
    (conversation_history : Option String) (tools : List ToolSchema)
    (tool_manager : Option ToolFun) (max_rounds : Nat) :
    List Event × Option String :=
  let api_params := firstApiParams query conversation_history tools
  let response := oracle 0
  match decide (response.stop_reason = "tool_use"), tool_manager, tools with
  | true, some tm, t :: ts =>
      let r := processToolChain oracle tm
        (buildSystemContent conversation_history) (t :: ts) response
        [⟨"user", MessageContent.str query⟩] 1 max_rounds 1
      (Event.modelCall api_params :: r.1, r.2)
  | _, _, _ =>
      ([Event.modelCall api_params], firstContentText response.content)

/-- The execution event a content block gives rise to in the tool loop:
`some` exactly for `tool_use` blocks. -/
def toolUseExecEvent (tm : ToolFun) : ContentBlock → Option Event
  | ContentBlock.toolUse _ name input => some (Event.toolExec name input (tm name input))
  | ContentBlock.text _ => none
  | ContentBlock.toolResult _ _ => none

/-- The `tool_result` dictionary a content block gives rise to in the tool
loop: `some` exactly for `tool_use` blocks, carrying the block's `id` as
`tool_use_id`. -/
def toolUseResult (tm : ToolFun) : ContentBlock → Option ContentBlock
  | ContentBlock.toolUse id name input => some (ContentBlock.toolResult id (tm name input))
  | ContentBlock.text _ => none
  | ContentBlock.toolResult _ _ => none

/-- Reading of the spec sentence for claim C5 (written from the spec words,
to be compared against the code): the text of the first `text` content
block of a block list, skipping any non-text blocks before it. -/
def firstTextBlockText (bs : List ContentBlock) : Option String :=
  (bs.filterMap blockText).head?

/-- Modelled from the spec: a `Source` provenance record
(`displayText`, optional `url`) — `search_tools.py` is not among the
given sources, only its tests are. -/
structure Source where
  text : String
  url : Option String
deriving DecidableEq

/-- Modelled from the spec: a registered tool capability, the contract
`definition() / execute(**kwargs) / sources` of §4.1 and §9.  `run` computes
the textual result together with the sources of that execution; `execute`
below performs the spec's side effect of replacing (not appending to) the
tool's held source list.  `last_sources` is the mutable per-tool source
list the tests read as `tool.last_sources`. -/
structure Capability where
  name : String
  run : List (String × String) → String × List Source
  last_sources : List Source

/-- Modelled from the spec: executing a capability returns its textual
result and the capability with its held source list replaced by the
sources of this execution. -/
def Capability.execute (c : Capability) (args : List (String × String)) :
    String × Capability :=
  let r := c.run args
  (r.1, ⟨c.name, c.run, r.2⟩)

/-- Modelled from the spec: the `ToolManager` of `search_tools.py`, holding
tools by name in registration order. -/
structure ToolManager where
  tools : List Capability

/-- Modelled from the spec: `ToolManager.execute_tool(name, **kwargs)` —
looks up `name`; if absent returns the literal not-found message used by
the tests (never raises); if present, executes the tool and stores its
updated state (held sources replaced). -/
def ToolManager.execute_tool (m : ToolManager) (name : String)
    (args : List (String × String)) : String × ToolManager :=
  match m.tools.find? (fun u => u.name = name) with
  | none => ("Tool \x27" ++ name ++ "\x27 not found", m)
  | some t =>
      let r := t.execute args
      (r.1, ⟨m.tools.map (fun u => if u.name = name then r.2 else u)⟩)

/-- Modelled from the spec: `ToolManager.get_last_sources()` — the
concatenation, in registration order, of every registered tool's currently
held sources. -/
def ToolManager.get_last_sources (m : ToolManager) : List Source :=
  (m.tools.map Capability.last_sources).flatten

/-- Modelled from the spec: `ToolManager.reset_sources()` — clears every
registered tool's source list. -/
def ToolManager.reset_sources (m : ToolManager) : ToolManager :=
  ⟨m.tools.map (fun t => ⟨t.name, t.run, []⟩)⟩

/-- A model response requesting one tool call, shaped like the
`mock_tool_use_response` fixture of the tests. -/
def toolUseResponse : ModelResponse :=
  ⟨"tool_use", [ContentBlock.toolUse "tool_123" "search" [("query", "mcp")]]⟩

/-- A second tool-use response, shaped like `mock_second_tool_use_response`. -/
def secondToolUseResponse : ModelResponse :=
  ⟨"tool_use", [ContentBlock.toolUse "tool_456" "search" [("query", "details")]]⟩

/-- A plain final response, shaped like `mock_final_response`. -/
def finalResponse : ModelResponse :=
  ⟨"end_turn", [ContentBlock.text "Based on the course content, here is your answer."]⟩

/-- An oracle whose first response requests a tool call and whose later
responses are final text. -/
def oracleOneRound : Nat → ModelResponse
  | 0 => toolUseResponse
  | _ + 1 => finalResponse

/-- An oracle requesting tool calls on the first two responses. -/
def oracleTwoRounds : Nat → ModelResponse
  | 0 => toolUseResponse
  | 1 => secondToolUseResponse
  | _ + 2 => finalResponse

/-- An oracle that always requests another tool call, exercising the round
limit. -/
def oracleAlwaysTools : Nat → ModelResponse
  | 0 => toolUseResponse
  | _ + 1 => secondToolUseResponse

/-- An oracle that always answers directly with text. -/
def oracleDirect : Nat → ModelResponse
  | _ => finalResponse

/-- A stub tool manager function, like the mocked
`tool_manager.execute_tool` of the tests. -/
def toolManagerStub : ToolFun := fun _ _ => "Search results"

/-- A messages list alternates roles starting with `user` (even indices
`user`, odd indices `assistant`). -/
def altUserAssistant (ms : List Message) : Prop :=
  ∀ j m, ms[j]? = some m → m.role = (if j % 2 = 0 then "user" else "assistant")

/-- A final response whose first content block is not a text block (a
`tool_use` block precedes the text). -/
def mixedFinalResponse : ModelResponse :=
  ⟨"end_turn", [ContentBlock.toolUse "toolA" "search" [], ContentBlock.text "answer"]⟩

/-- An oracle always answering with `mixedFinalResponse`. -/
def oracleMixedFinal : Nat → ModelResponse := fun _ => mixedFinalResponse

/-- The parameters of the second model call of a one-round run of
`oracleOneRound` with `toolManagerStub`, query `q`, no history, one tool
schema and `max_rounds = 2`. -/
def exampleSecondCall : ApiCall :=
  ⟨[⟨"user", MessageContent.str "q"⟩,
    ⟨"assistant", MessageContent.blocks toolUseResponse.content⟩,
    ⟨"user", MessageContent.blocks [ContentBlock.toolResult "tool_123" "Search results"]⟩],
   SYSTEM_PROMPT, some ["search"], true⟩

/-- A concrete search capability for exercising the tool manager: returns a
formatted hit and one source, starting with a stale held source list. -/
def searchCapability : Capability :=
  ⟨"search_course_content",
   fun _ => ("[MCP Course - Lesson 1]\nSample content about MCP protocols",
             [⟨"MCP Course - Lesson 1", some "https://example.com/lesson1"⟩]),
   [⟨"old source", some "old-url"⟩]⟩

/-- A tool manager holding just `searchCapability`. -/
def exampleManager : ToolManager := ⟨[searchCapability]⟩

lemma modelCalls_append (a b : List Event) :
    modelCalls (a ++ b) = modelCalls a ++ modelCalls b := by
  simp [modelCalls]

lemma modelCalls_cons_exec (n : String) (i : List (String × String)) (r : String)
    (es : List Event) :
    modelCalls (Event.toolExec n i r :: es) = modelCalls es := by
  simp [modelCalls]

lemma modelCalls_cons_call (p : ApiCall) (es : List Event) :
    modelCalls (Event.modelCall p :: es) = p :: modelCalls es := by
  simp [modelCalls]

lemma runTools_eq (tm : ToolFun) (bs : List ContentBlock) :
    runTools tm bs =
      (bs.filterMap (toolUseExecEvent tm), bs.filterMap (toolUseResult tm)) := by
  induction bs with
  | nil => rfl
  | cons b rest ih =>
      cases b <;> simp [runTools, toolUseExecEvent, toolUseResult, ih]

lemma modelCalls_runTools (tm : ToolFun) (bs : List ContentBlock) :
    modelCalls (runTools tm bs).1 = [] := by
  rw [runTools_eq]
  induction bs with
  | nil => rfl
  | cons b rest ih =>
      cases b <;> simp [toolUseExecEvent, modelCalls] at * <;> exact ih

lemma filterMap_toolUseResult_ne_nil (tm : ToolFun) (bs : List ContentBlock)
    (h : bs.any isToolUse = true) :
    bs.filterMap (toolUseResult tm) ≠ [] := by
  induction bs with
  | nil => simp at h
  | cons b rest ih =>
      cases b with
      | toolUse id name input => simp [toolUseResult]
      | text v =>
          simp only [List.any_cons, isToolUse, Bool.false_or] at h
          simpa [toolUseResult] using ih h
      | toolResult a c =>
          simp only [List.any_cons, isToolUse, Bool.false_or] at h
          simpa [toolUseResult] using ih h

lemma chainMessages_eq_of_toolUse (tm : ToolFun) (response : ModelResponse)
    (messages : List Message) (h : response.content.any isToolUse = true) :
    chainMessages tm response messages =
      messages ++ [⟨"assistant", MessageContent.blocks response.content⟩,
                   ⟨"user", MessageContent.blocks
                      (response.content.filterMap (toolUseResult tm))⟩] := by
  simp [chainMessages, runTools_eq, filterMap_toolUseResult_ne_nil tm _ h]

lemma altUserAssistant_append_two (ms : List Message) (a b : Message)
    (h : altUserAssistant ms) (hlen : ms.length % 2 = 1)
    (ha : a.role = "assistant") (hb : b.role = "user") :
    altUserAssistant (ms ++ [a, b]) := by
  intro j m hj
  have hjlt : j < ms.length + 2 := by
    by_contra hc
    rw [List.getElem?_eq_none (by simp; omega)] at hj
    exact Option.noConfusion hj
  rcases Nat.lt_trichotomy j ms.length with hlt | heq | hgt
  · rw [List.getElem?_append_left hlt] at hj
    exact h j m hj
  · rw [List.getElem?_append_right (Nat.le_of_eq heq.symm)] at hj
    rw [heq, Nat.sub_self] at hj
    simp at hj
    rw [← hj, ha, if_neg (show ¬ j % 2 = 0 by omega)]
  · have hj1 : j = ms.length + 1 := by omega
    rw [List.getElem?_append_right (by omega)] at hj
    rw [hj1, Nat.add_sub_cancel_left] at hj
    simp at hj
    rw [← hj, hb, if_pos (show j % 2 = 0 by omega)]

lemma modelCalls_nil : modelCalls [] = [] := rfl

lemma processToolChainAux_zero (oracle : Nat → ModelResponse) (tm : ToolFun)
    (sys : String) (tools : List ToolSchema) (response : ModelResponse)
    (messages : List Message) (cr mr cm : Nat) :
    processToolChainAux oracle tm sys tools 0 response messages cr mr cm =
      ((runTools tm response.content).1 ++
        [Event.modelCall (chainNextParams tm sys tools response messages cr mr)],
       firstContentText (oracle cm).content) := rfl

lemma processToolChainAux_succ (oracle : Nat → ModelResponse) (tm : ToolFun)
    (sys : String) (tools : List ToolSchema) (gas : Nat) (response : ModelResponse)
    (messages : List Message) (cr mr cm : Nat) :
    processToolChainAux oracle tm sys tools (gas + 1) response messages cr mr cm =
      if (oracle cm).stop_reason = "tool_use" ∧ cr < mr then
        ((runTools tm response.content).1 ++
          Event.modelCall (chainNextParams tm sys tools response messages cr mr) ::
            (processToolChainAux oracle tm sys tools gas (oracle cm)
              (chainMessages tm response messages) (cr + 1) mr (cm + 1)).1,
         (processToolChainAux oracle tm sys tools gas (oracle cm)
           (chainMessages tm response messages) (cr + 1) mr (cm + 1)).2)
      else
        ((runTools tm response.content).1 ++
          [Event.modelCall (chainNextParams tm sys tools response messages cr mr)],
         firstContentText (oracle cm).content) := rfl

lemma processToolChainAux_calls (oracle : Nat → ModelResponse) (tm : ToolFun)
    (sys : String) (tools : List ToolSchema) (mr : Nat) :
    ∀ gas cr response messages cm, gas = mr - cr →
      (modelCalls
        (processToolChainAux oracle tm sys tools gas response messages cr mr cm).1).length
          ≤ gas + 1 ∧
      (∀ j p,
        (modelCalls
          (processToolChainAux oracle tm sys tools gas response messages cr mr cm).1)[j]?
            = some p →
        p.toolsParam = (if cr + j < mr then some tools else none) ∧
        p.toolChoiceAuto = decide (cr + j < mr)) := by
  intro gas
  induction gas with
  | zero =>
      intro cr response messages cm hgas
      have hcr : ¬ cr < mr := by omega
      rw [processToolChainAux_zero]
      simp only [modelCalls_append, modelCalls_runTools, modelCalls_cons_call,
        modelCalls_nil, List.nil_append]
      refine ⟨by simp, ?_⟩
      intro j p hp
      match j with
      | 0 =>
          simp only [List.getElem?_cons_zero, Option.some.injEq] at hp
          subst hp
          exact ⟨by simp [chainNextParams, hcr], by simp [chainNextParams, hcr]⟩
      | j + 1 =>
          simp at hp
  | succ gas ih =>
      intro cr response messages cm hgas
      have hcr : cr < mr := by omega
      rw [processToolChainAux_succ]
      by_cases hstop : (oracle cm).stop_reason = "tool_use"
      · rw [if_pos ⟨hstop, hcr⟩]
        simp only [modelCalls_append, modelCalls_runTools, modelCalls_cons_call,
          modelCalls_nil, List.nil_append]
        obtain ⟨ihlen, ihidx⟩ :=
          ih (cr + 1) (oracle cm) (chainMessages tm response messages) (cm + 1) (by omega)
        constructor
        · simp only [List.length_cons]
          omega
        · intro j p hp
          match j with
          | 0 =>
              simp only [List.getElem?_cons_zero, Option.some.injEq] at hp
              subst hp
              exact ⟨by simp [chainNextParams, hcr], by simp [chainNextParams, hcr]⟩
          | j + 1 =>
              simp only [List.getElem?_cons_succ] at hp
              have hres := ihidx j p hp
              rwa [show cr + 1 + j = cr + (j + 1) from by omega] at hres
      · rw [if_neg (fun hand => hstop hand.1)]
        simp only [modelCalls_append, modelCalls_runTools, modelCalls_cons_call,
          modelCalls_nil, List.nil_append]
        refine ⟨by simp, ?_⟩
        intro j p hp
        match j with
        | 0 =>
            simp only [List.getElem?_cons_zero, Option.some.injEq] at hp
            subst hp
            exact ⟨by simp [chainNextParams, hcr], by simp [chainNextParams, hcr]⟩
        | j + 1 =>
            simp at hp

lemma processToolChainAux_result (oracle : Nat → ModelResponse) (tm : ToolFun)
    (sys : String) (tools : List ToolSchema) (mr : Nat) :
    ∀ gas cr response messages cm,
      (processToolChainAux oracle tm sys tools gas response messages cr mr cm).2 =
        firstContentText ((oracle (cm +
          (modelCalls
            (processToolChainAux oracle tm sys tools gas response messages cr mr cm).1).length
          - 1)).content) := by
  intro gas
  induction gas with
  | zero =>
      intro cr response messages cm
      rw [processToolChainAux_zero]
      simp [modelCalls_append, modelCalls_runTools, modelCalls_cons_call, modelCalls_nil]
  | succ gas ih =>
      intro cr response messages cm
      rw [processToolChainAux_succ]
      by_cases hc : (oracle cm).stop_reason = "tool_use" ∧ cr < mr
      · rw [if_pos hc]
        simp only [modelCalls_append, modelCalls_runTools, modelCalls_cons_call,
          modelCalls_nil, List.nil_append, List.length_cons]
        rw [ih (cr + 1) (oracle cm) (chainMessages tm response messages) (cm + 1)]
        generalize (modelCalls
          (processToolChainAux oracle tm sys tools gas (oracle cm)
            (chainMessages tm response messages) (cr + 1) mr (cm + 1)).1).length = L
        rw [show cm + 1 + L - 1 = cm + (L + 1) - 1 from by omega]
      · rw [if_neg hc]
        simp [modelCalls_append, modelCalls_runTools, modelCalls_cons_call, modelCalls_nil]

lemma processToolChainAux_messages (oracle : Nat → ModelResponse) (tm : ToolFun)
    (sys : String) (tools : List ToolSchema) (mr : Nat)
    (hOracle : ∀ n, (oracle n).stop_reason = "tool_use" →
      (oracle n).content.any isToolUse = true) :
    ∀ gas cr response messages cm,
      response.content.any isToolUse = true →
      altUserAssistant messages →
      messages.length + 1 = 2 * cm →
      ∀ j p,
        (modelCalls
          (processToolChainAux oracle tm sys tools gas response messages cr mr cm).1)[j]?
            = some p →
        altUserAssistant p.messages ∧ p.messages.length = 2 * (cm + j) + 1 := by
  intro gas
  induction gas with
  | zero =>
      intro cr response messages cm hAny hAlt hLen j p hp
      rw [processToolChainAux_zero] at hp
      simp only [modelCalls_append, modelCalls_runTools, modelCalls_cons_call,
        modelCalls_nil, List.nil_append] at hp
      match j with
      | 0 =>
          simp only [List.getElem?_cons_zero, Option.some.injEq] at hp
          subst hp
          have hmsg : (chainNextParams tm sys tools response messages cr mr).messages =
              chainMessages tm response messages := rfl
          rw [hmsg, chainMessages_eq_of_toolUse tm response messages hAny]
          constructor
          · exact altUserAssistant_append_two _ _ _ hAlt (by omega) rfl rfl
          · simp only [List.length_append, List.length_cons, List.length_nil]
            omega
      | j + 1 =>
          simp at hp
  | succ gas ih =>
      intro cr response messages cm hAny hAlt hLen j p hp
      rw [processToolChainAux_succ] at hp
      by_cases hc : (oracle cm).stop_reason = "tool_use" ∧ cr < mr
      · rw [if_pos hc] at hp
        simp only [modelCalls_append, modelCalls_runTools, modelCalls_cons_call,
          modelCalls_nil, List.nil_append] at hp
        match j with
        | 0 =>
            simp only [List.getElem?_cons_zero, Option.some.injEq] at hp
            subst hp
            have hmsg : (chainNextParams tm sys tools response messages cr mr).messages =
                chainMessages tm response messages := rfl
            rw [hmsg, chainMessages_eq_of_toolUse tm response messages hAny]
            constructor
            · exact altUserAssistant_append_two _ _ _ hAlt (by omega) rfl rfl
            · simp only [List.length_append, List.length_cons, List.length_nil]
              omega
        | j + 1 =>
            simp only [List.getElem?_cons_succ] at hp
            have hAny2 := hOracle cm hc.1
            have hAlt2 : altUserAssistant (chainMessages tm response messages) := by
              rw [chainMessages_eq_of_toolUse tm response messages hAny]
              exact altUserAssistant_append_two _ _ _ hAlt (by omega) rfl rfl
            have hLen2 : (chainMessages tm response messages).length + 1 = 2 * (cm + 1) := by
              rw [chainMessages_eq_of_toolUse tm response messages hAny]
              simp only [List.length_append, List.length_cons, List.length_nil]
              omega
            have hres := ih (cr + 1) (oracle cm) (chainMessages tm response messages)
              (cm + 1) hAny2 hAlt2 hLen2 j p hp
            rwa [show cm + 1 + j = cm + (j + 1) from by omega] at hres
      · rw [if_neg hc] at hp
        simp only [modelCalls_append, modelCalls_runTools, modelCalls_cons_call,
          modelCalls_nil, List.nil_append] at hp
        match j with
        | 0 =>
            simp only [List.getElem?_cons_zero, Option.some.injEq] at hp
            subst hp
            have hmsg : (chainNextParams tm sys tools response messages cr mr).messages =
                chainMessages tm response messages := rfl
            rw [hmsg, chainMessages_eq_of_toolUse tm response messages hAny]
            constructor
            · exact altUserAssistant_append_two _ _ _ hAlt (by omega) rfl rfl
            · simp only [List.length_append, List.length_cons, List.length_nil]
              omega
        | j + 1 =>
            simp at hp

lemma cleared_sources_flatten (l : List Capability) :
    ((l.map (fun t => (⟨t.name, t.run, []⟩ : Capability))).map
      Capability.last_sources).flatten = [] := by
  induction l with
  | nil => rfl
  | cons a rest ih => simp [ih]

lemma find?_map_replace (l : List Capability) (name : String) (t2 : Capability)
    (h2 : t2.name = name)
    (hex : (l.find? (fun u => u.name = name)).isSome = true) :
    (l.map (fun u => if u.name = name then t2 else u)).find?
        (fun u => u.name = name) = some t2 := by
  induction l with
  | nil => simp at hex
  | cons a rest ih =>
      by_cases ha : a.name = name
      · rw [List.map_cons, if_pos ha, List.find?_cons_of_pos _ (by simp [h2])]
      · rw [List.map_cons, if_neg ha,
          List.find?_cons_of_neg _ (by simp [ha])]
        rw [List.find?_cons_of_neg _ (by simp [ha])] at hex
        exact ih hex

lemma generate_response_direct (oracle : Nat → ModelResponse) (query : String)
    (hist : Option String) (tools : List ToolSchema) (tmgr : Option ToolFun) (R : Nat)
    (h : ¬((oracle 0).stop_reason = "tool_use" ∧ tmgr.isSome = true ∧ tools ≠ [])) :
    generate_response oracle query hist tools tmgr R =
      ([Event.modelCall (firstApiParams query hist tools)],
       firstContentText (oracle 0).content) := by
  unfold generate_response
  by_cases hs : (oracle 0).stop_reason = "tool_use"
  · cases tmgr with
    | none => cases tools <;> simp [hs]
    | some tm =>
        cases tools with
        | nil => simp [hs]
        | cons t ts => exact absurd ⟨hs, rfl, by simp⟩ h
  · cases tmgr <;> cases tools <;> simp [hs]

lemma generate_response_chain (oracle : Nat → ModelResponse) (query : String)
    (hist : Option String) (t : ToolSchema) (ts : List ToolSchema) (tm : ToolFun)
    (R : Nat) (h : (oracle 0).stop_reason = "tool_use") :
    generate_response oracle query hist (t :: ts) (some tm) R =
      (Event.modelCall (firstApiParams query hist (t :: ts)) ::
        (processToolChain oracle tm (buildSystemContent hist) (t :: ts) (oracle 0)
          [⟨"user", MessageContent.str query⟩] 1 R 1).1,
       (processToolChain oracle tm (buildSystemContent hist) (t :: ts) (oracle 0)
         [⟨"user", MessageContent.str query⟩] 1 R 1).2) := by
  unfold generate_response
  simp [h]

lemma generate_response_first_call (oracle : Nat → ModelResponse) (query : String)
    (hist : Option String) (tools : List ToolSchema) (tmgr : Option ToolFun) (R : Nat) :
    (modelCalls (generate_response oracle query hist tools tmgr R).1)[0]? =
      some (firstApiParams query hist tools) := by
  by_cases hcond : (oracle 0).stop_reason = "tool_use" ∧ tmgr.isSome = true ∧ tools ≠ []
  · obtain ⟨hs, htm, hts⟩ := hcond
    cases tmgr with
    | none => simp at htm
    | some tm =>
        cases tools with
        | nil => simp at hts
        | cons t ts =>
            rw [generate_response_chain oracle query hist t ts tm R hs]
            simp [modelCalls_cons_call]
  · rw [generate_response_direct oracle query hist tools tmgr R hcond]
    simp [modelCalls]

lemma altUserAssistant_singleton (query : String) :
    altUserAssistant [⟨"user", MessageContent.str query⟩] := by
  intro j m hj
  match j with
  | 0 =>
      simp at hj
      rw [← hj]
      rfl
  | j + 1 => simp at hj

/-- Claim C1: for every `maxRounds = R ≥ 1` and every sequence of LLM
responses (in particular ones with toolUse blocks), `generate_response`
makes at most `R + 1` model calls, and the call at 1-based index `R + 1`
(0-based index `R`), if reached, carries no tool schemas and no
`tool_choice` parameter. -/
theorem claim1_round_limit_bounds_model_calls
    (oracle : Nat → ModelResponse) (query : String) (hist : Option String)
    (tools : List ToolSchema) (tmgr : Option ToolFun) (R : Nat) (hR : 1 ≤ R) :
    (modelCalls (generate_response oracle query hist tools tmgr R).1).length ≤ R + 1 ∧
    ∀ p,
      (modelCalls (generate_response oracle query hist tools tmgr R).1)[R]? = some p →
      p.toolsParam = none ∧ p.toolChoiceAuto = false := by
  obtain ⟨R', rfl⟩ : ∃ n, R = n + 1 := ⟨R - 1, by omega⟩
  by_cases hcond : (oracle 0).stop_reason = "tool_use" ∧ tmgr.isSome = true ∧ tools ≠ []
  · obtain ⟨hs, htm, hts⟩ := hcond
    cases tmgr with
    | none => simp at htm
    | some tm =>
    cases tools with
    | nil => simp at hts
    | cons t ts =>
    rw [generate_response_chain oracle query hist t ts tm (R' + 1) hs]
    simp only [processToolChain, modelCalls_cons_call, List.length_cons,
      List.getElem?_cons_succ]
    obtain ⟨hlen, hidx⟩ := processToolChainAux_calls oracle tm (buildSystemContent hist)
      (t :: ts) (R' + 1) ((R' + 1) - 1) 1 (oracle 0)
      [⟨"user", MessageContent.str query⟩] 1 rfl
    constructor
    · omega
    · intro p hp
      have h2 := hidx R' p hp
      rw [if_neg (by omega)] at h2
      refine ⟨h2.1, ?_⟩
      rw [h2.2]
      exact decide_eq_false (by omega)
  · rw [generate_response_direct oracle query hist tools tmgr (R' + 1) hcond]
    constructor
    · simp [modelCalls]
    · intro p hp
      simp [modelCalls] at hp

/-- Witness for claim C1 at a concrete input: `R = 2` with an oracle that
keeps requesting tool calls. -/
theorem claim1_round_limit_bounds_model_calls_witness :
    1 ≤ 2 ∧
    ((modelCalls (generate_response oracleAlwaysTools "q" none ["search"]
        (some toolManagerStub) 2).1).length ≤ 2 + 1 ∧
     ∀ p,
       (modelCalls (generate_response oracleAlwaysTools "q" none ["search"]
         (some toolManagerStub) 2).1)[2]? = some p →
       p.toolsParam = none ∧ p.toolChoiceAuto = false) :=
  ⟨by decide,
   claim1_round_limit_bounds_model_calls oracleAlwaysTools "q" none ["search"]
     (some toolManagerStub) 2 (by decide)⟩

/-- Claim C2, counterexample: with `max_rounds = 0` (the limit already
reached at the very first call) the first model call still includes the
tool schemas and the automatic tool_choice, contradicting the claim that
the call would omit tool schemas entirely. -/
theorem claim2_counterexample_first_call_keeps_tools :
    ((modelCalls (generate_response oracleDirect "q" none ["search"]
        (some toolManagerStub) 0).1)[0]?).map ApiCall.toolsParam =
      some (some ["search"]) ∧
    ((modelCalls (generate_response oracleDirect "q" none ["search"]
        (some toolManagerStub) 0).1)[0]?).map ApiCall.toolChoiceAuto = some true := by
  decide

/-- Claim C2, amended: the first model call includes tool schemas (and the
automatic tool_choice) exactly when `tools` is non-empty, regardless of
`maxRounds`; every later call, made after round `i` of tool execution,
includes them exactly when `i < maxRounds`. -/
theorem claim2_amended_tool_schema_per_round
    (oracle : Nat → ModelResponse) (query : String) (hist : Option String)
    (tools : List ToolSchema) (tmgr : Option ToolFun) (R i : Nat) (p : ApiCall)
    (hp : (modelCalls (generate_response oracle query hist tools tmgr R).1)[i]? = some p) :
    p.toolsParam = (if i = 0 then (if tools = [] then none else some tools)
                    else if i < R then some tools else none) ∧
    p.toolChoiceAuto = (if i = 0 then !tools.isEmpty else decide (i < R)) := by
  by_cases hcond : (oracle 0).stop_reason = "tool_use" ∧ tmgr.isSome = true ∧ tools ≠ []
  · obtain ⟨hs, htm, hts⟩ := hcond
    cases tmgr with
    | none => simp at htm
    | some tm =>
    cases tools with
    | nil => simp at hts
    | cons t ts =>
    rw [generate_response_chain oracle query hist t ts tm R hs] at hp
    simp only [processToolChain, modelCalls_cons_call] at hp
    match i with
    | 0 =>
        simp only [List.getElem?_cons_zero, Option.some.injEq] at hp
        subst hp
        exact ⟨by simp [firstApiParams], by simp [firstApiParams]⟩
    | i + 1 =>
        rw [List.getElem?_cons_succ] at hp
        have h2 := (processToolChainAux_calls oracle tm (buildSystemContent hist)
          (t :: ts) R (R - 1) 1 (oracle 0)
          [⟨"user", MessageContent.str query⟩] 1 rfl).2 i p hp
        rw [show 1 + i = i + 1 from Nat.add_comm 1 i] at h2
        refine ⟨?_, ?_⟩
        · rw [if_neg (Nat.succ_ne_zero i)]
          exact h2.1
        · rw [if_neg (Nat.succ_ne_zero i)]
          exact h2.2
  · rw [generate_response_direct oracle query hist tools tmgr R hcond] at hp
    match i with
    | 0 =>
        simp [modelCalls] at hp
        rw [← hp]
        exact ⟨by simp [firstApiParams], by simp [firstApiParams]⟩
    | i + 1 =>
        simp [modelCalls] at hp

/-- Witness for the amended claim C2 at a concrete input: the second call
of a one-round run with `R = 2` still carries the tool schemas. -/
theorem claim2_amended_tool_schema_per_round_witness :
    exampleSecondCall.toolsParam =
      (if (1 : Nat) = 0 then (if (["search"] : List ToolSchema) = [] then none else some ["search"])
       else if (1 : Nat) < 2 then some ["search"] else none) ∧
    exampleSecondCall.toolChoiceAuto =
      (if (1 : Nat) = 0 then !(["search"] : List ToolSchema).isEmpty
       else decide ((1 : Nat) < 2)) :=
  claim2_amended_tool_schema_per_round oracleOneRound "q" none ["search"]
    (some toolManagerStub) 2 1 exampleSecondCall (by rfl)

/-- Claim C4: when the first model response does not signal tool use,
`generate_response` makes exactly one model call (so no tool is executed —
the trace is a single model-call event) and returns that response's
`content[0].text`. -/
theorem claim4_no_tool_use_single_call
    (oracle : Nat → ModelResponse) (query : String) (hist : Option String)
    (tools : List ToolSchema) (tmgr : Option ToolFun) (R : Nat)
    (h : (oracle 0).stop_reason ≠ "tool_use") :
    (generate_response oracle query hist tools tmgr R).1 =
      [Event.modelCall (firstApiParams query hist tools)] ∧
    (generate_response oracle query hist tools tmgr R).2 =
      firstContentText (oracle 0).content := by
  rw [generate_response_direct oracle query hist tools tmgr R (fun hc => h hc.1)]
  exact ⟨rfl, rfl⟩

/-- Witness for claim C4 at a concrete input. -/
theorem claim4_no_tool_use_single_call_witness :
    (oracleDirect 0).stop_reason ≠ "tool_use" ∧
    ((generate_response oracleDirect "What is MCP?" none ["search"]
        (some toolManagerStub) 2).1 =
      [Event.modelCall (firstApiParams "What is MCP?" none ["search"])] ∧
     (generate_response oracleDirect "What is MCP?" none ["search"]
        (some toolManagerStub) 2).2 =
      firstContentText (oracleDirect 0).content) :=
  ⟨by decide,
   claim4_no_tool_use_single_call oracleDirect "What is MCP?" none ["search"]
     (some toolManagerStub) 2 (by decide)⟩

/-- Claim C9: when the first response signals `tool_use` but `tool_manager`
is `None` or `tools` is empty, no tool is executed and no second model call
is made (the trace is a single model-call event), and the method returns
the `.text` attribute of the first content block of that response. -/
theorem claim9_tool_use_without_manager_single_call
    (oracle : Nat → ModelResponse) (query : String) (hist : Option String)
    (tools : List ToolSchema) (tmgr : Option ToolFun) (R : Nat)
    (_hs : (oracle 0).stop_reason = "tool_use")
    (hno : tmgr = none ∨ tools = []) :
    (generate_response oracle query hist tools tmgr R).1 =
      [Event.modelCall (firstApiParams query hist tools)] ∧
    (generate_response oracle query hist tools tmgr R).2 =
      firstContentText (oracle 0).content := by
  have hcond : ¬((oracle 0).stop_reason = "tool_use" ∧ tmgr.isSome = true ∧
      tools ≠ []) := by
    rcases hno with h | h
    · rw [h]
      simp
    · rw [h]
      simp
  rw [generate_response_direct oracle query hist tools tmgr R hcond]
  exact ⟨rfl, rfl⟩

/-- Witness for claim C9 at a concrete input: first response requests a
tool, but no tool manager was given. -/
theorem claim9_tool_use_without_manager_single_call_witness :
    (oracleAlwaysTools 0).stop_reason = "tool_use" ∧
    ((generate_response oracleAlwaysTools "q" none ["search"] none 2).1 =
      [Event.modelCall (firstApiParams "q" none ["search"])] ∧
     (generate_response oracleAlwaysTools "q" none ["search"] none 2).2 =
      firstContentText (oracleAlwaysTools 0).content) :=
  ⟨by decide,
   claim9_tool_use_without_manager_single_call oracleAlwaysTools "q" none ["search"]
     none 2 (by decide) (Or.inl rfl)⟩

/-- Claim C3: in `_process_tool_chain`, every `ToolUse` block of the
response is executed exactly once with that block's name and arguments, in
content order (the trace opens with exactly the filterMap of the tool-use
blocks); the results form exactly one `ToolResult` per block, carrying the
block's `id`, inside a single user-role message appended right after the
assistant content; and all of this precedes the next model call. -/
theorem claim3_tool_blocks_executed_in_order
    (oracle : Nat → ModelResponse) (tm : ToolFun) (sys : String)
    (tools : List ToolSchema) (response : ModelResponse) (messages : List Message)
    (cr mr cm : Nat) (h : response.content.any isToolUse = true) :
    ∃ rest,
      (processToolChain oracle tm sys tools response messages cr mr cm).1 =
        response.content.filterMap (toolUseExecEvent tm) ++
        Event.modelCall
          ⟨messages ++
            [⟨"assistant", MessageContent.blocks response.content⟩,
             ⟨"user", MessageContent.blocks
                (response.content.filterMap (toolUseResult tm))⟩],
           sys,
           if cr < mr then some tools else none,
           decide (cr < mr)⟩ :: rest := by
  have hparams : chainNextParams tm sys tools response messages cr mr =
      ⟨messages ++
        [⟨"assistant", MessageContent.blocks response.content⟩,
         ⟨"user", MessageContent.blocks
            (response.content.filterMap (toolUseResult tm))⟩],
       sys, if cr < mr then some tools else none, decide (cr < mr)⟩ := by
    unfold chainNextParams
    rw [chainMessages_eq_of_toolUse tm response messages h]
  unfold processToolChain
  cases hgas : mr - cr with
  | zero =>
      rw [processToolChainAux_zero, runTools_eq, hparams]
      exact ⟨[], rfl⟩
  | succ gas =>
      rw [processToolChainAux_succ]
      by_cases hc : (oracle cm).stop_reason = "tool_use" ∧ cr < mr
      · rw [if_pos hc, runTools_eq, hparams]
        exact ⟨_, rfl⟩
      · rw [if_neg hc, runTools_eq, hparams]
        exact ⟨[], rfl⟩

/-- Witness for claim C3 at a concrete input. -/
theorem claim3_tool_blocks_executed_in_order_witness :
    (toolUseResponse.content.any isToolUse = true) ∧
    (∃ rest,
      (processToolChain oracleOneRound toolManagerStub SYSTEM_PROMPT ["search"]
        toolUseResponse [⟨"user", MessageContent.str "q"⟩] 1 2 1).1 =
        toolUseResponse.content.filterMap (toolUseExecEvent toolManagerStub) ++
        Event.modelCall
          ⟨[⟨"user", MessageContent.str "q"⟩] ++
            [⟨"assistant", MessageContent.blocks toolUseResponse.content⟩,
             ⟨"user", MessageContent.blocks
                (toolUseResponse.content.filterMap (toolUseResult toolManagerStub))⟩],
           SYSTEM_PROMPT,
           if 1 < 2 then some ["search"] else none,
           decide (1 < 2)⟩ :: rest) :=
  ⟨by decide,
   claim3_tool_blocks_executed_in_order oracleOneRound toolManagerStub SYSTEM_PROMPT
     ["search"] toolUseResponse [⟨"user", MessageContent.str "q"⟩] 1 2 1 (by decide)⟩

/-- Claim C5, counterexample: the code returns `content[0].text` of the
last response, not the text of its first `text` block.  When a `tool_use`
block precedes the text block, the code's attribute access fails (`none`),
while the claim's reading yields the text. -/
theorem claim5_counterexample_first_block_not_first_text_block :
    (generate_response oracleMixedFinal "q" none [] none 2).2 = none ∧
    firstTextBlockText ((oracleMixedFinal
      ((modelCalls (generate_response oracleMixedFinal "q" none [] none 2).1).length
        - 1)).content) = some "answer" := by
  decide

/-- Claim C5, amended: for every terminating run, the returned value is the
`.text` attribute of the FIRST content block of the last model response
(undefined — modelled `none` — when that block is not a text block); the
code does not skip over non-text blocks. -/
theorem claim5_amended_result_is_first_block_text
    (oracle : Nat → ModelResponse) (query : String) (hist : Option String)
    (tools : List ToolSchema) (tmgr : Option ToolFun) (R : Nat) :
    (generate_response oracle query hist tools tmgr R).2 =
      firstContentText ((oracle
        ((modelCalls (generate_response oracle query hist tools tmgr R).1).length
          - 1)).content) := by
  by_cases hcond : (oracle 0).stop_reason = "tool_use" ∧ tmgr.isSome = true ∧ tools ≠ []
  · obtain ⟨hs, htm, hts⟩ := hcond
    cases tmgr with
    | none => simp at htm
    | some tm =>
    cases tools with
    | nil => simp at hts
    | cons t ts =>
    rw [generate_response_chain oracle query hist t ts tm R hs]
    simp only [processToolChain, modelCalls_cons_call, List.length_cons]
    rw [processToolChainAux_result oracle tm (buildSystemContent hist) (t :: ts) R
      (R - 1) 1 (oracle 0) [⟨"user", MessageContent.str query⟩] 1]
    generalize (modelCalls (processToolChainAux oracle tm (buildSystemContent hist)
      (t :: ts) (R - 1) (oracle 0)
      [⟨"user", MessageContent.str query⟩] 1 R 1).1).length = L
    rw [show 1 + L - 1 = L + 1 - 1 from by omega]
  · rw [generate_response_direct oracle query hist tools tmgr R hcond]
    simp [modelCalls]

/-- Claim C6: the first model call's message list is exactly one user-role
message holding the raw query (for no history, first conjunct), and a
non-empty history appears only in the system parameter, appended after the
system prompt, never in the message list (second conjunct: the full first
call for a run with history). -/
theorem claim6_history_in_system_not_in_messages
    (oracle : Nat → ModelResponse) (query s : String) (tools : List ToolSchema)
    (tmgr : Option ToolFun) (R : Nat) (hs : s ≠ "") :
    ((modelCalls (generate_response oracle query none tools tmgr R).1)[0]?).map
        ApiCall.messages = some [⟨"user", MessageContent.str query⟩] ∧
    (modelCalls (generate_response oracle query (some s) tools tmgr R).1)[0]? =
      some ⟨[⟨"user", MessageContent.str query⟩],
            SYSTEM_PROMPT ++ "\n\nPrevious conversation:\n" ++ s,
            if tools = [] then none else some tools,
            !tools.isEmpty⟩ := by
  constructor
  · rw [generate_response_first_call]
    rfl
  · rw [generate_response_first_call]
    dsimp only [firstApiParams, buildSystemContent]
    rw [if_neg hs]

/-- Witness for claim C6 at a concrete input. -/
theorem claim6_history_in_system_not_in_messages_witness :
    ("User: Previous question" ≠ "") ∧
    (((modelCalls (generate_response oracleDirect "Follow-up" none ["search"]
        none 2).1)[0]?).map ApiCall.messages =
        some [⟨"user", MessageContent.str "Follow-up"⟩] ∧
     (modelCalls (generate_response oracleDirect "Follow-up"
        (some "User: Previous question") ["search"] none 2).1)[0]? =
       some ⟨[⟨"user", MessageContent.str "Follow-up"⟩],
             SYSTEM_PROMPT ++ "\n\nPrevious conversation:\n" ++ "User: Previous question",
             if (["search"] : List ToolSchema) = [] then none else some ["search"],
             !(["search"] : List ToolSchema).isEmpty⟩) :=
  ⟨by decide,
   claim6_history_in_system_not_in_messages oracleDirect "Follow-up"
     "User: Previous question" ["search"] none 2 (by decide)⟩

/-- Claim C7: executing an unregistered tool name returns a text result
that contains the unknown name (the literal not-found message) and never
raises — `execute_tool` is total and leaves the manager unchanged on this
path. -/
theorem claim7_unknown_tool_not_found_message (m : ToolManager) (name : String)
    (args : List (String × String))
    (h : m.tools.find? (fun u => u.name = name) = none) :
    (m.execute_tool name args).1 = "Tool \x27" ++ name ++ "\x27 not found" ∧
    ∃ pre post, (m.execute_tool name args).1 = pre ++ (name ++ post) := by
  have hres : (m.execute_tool name args).1 =
      "Tool \x27" ++ name ++ "\x27 not found" := by
    unfold ToolManager.execute_tool
    rw [h]
  refine ⟨hres, "Tool \x27", "\x27 not found", ?_⟩
  rw [hres, String.append_assoc]

/-- Witness for claim C7 at a concrete input (the tests' unknown name). -/
theorem claim7_unknown_tool_not_found_message_witness :
    ((⟨[]⟩ : ToolManager).tools.find?
      (fun u => u.name = "nonexistent_tool") = none) ∧
    (((⟨[]⟩ : ToolManager).execute_tool "nonexistent_tool" [("query", "test")]).1 =
       "Tool \x27" ++ "nonexistent_tool" ++ "\x27 not found" ∧
     ∃ pre post,
       ((⟨[]⟩ : ToolManager).execute_tool "nonexistent_tool" [("query", "test")]).1 =
         pre ++ ("nonexistent_tool" ++ post)) :=
  ⟨rfl,
   claim7_unknown_tool_not_found_message ⟨[]⟩ "nonexistent_tool"
     [("query", "test")] rfl⟩

/-- Claim C8: `get_last_sources` right after `reset_sources` is empty, and
a new `execute_tool` call on a registered tool replaces (does not append
to) that tool's previously held source list: afterwards the tool holds
exactly the sources of this execution, whatever it held before. -/
theorem claim8_reset_clears_and_execute_replaces_sources (m : ToolManager)
    (name : String) (args : List (String × String)) (t : Capability)
    (h : m.tools.find? (fun u => u.name = name) = some t) :
    m.reset_sources.get_last_sources = [] ∧
    (m.execute_tool name args).2.tools.find? (fun u => u.name = name) =
      some ⟨t.name, t.run, (t.run args).2⟩ := by
  constructor
  · unfold ToolManager.reset_sources ToolManager.get_last_sources
    exact cleared_sources_flatten m.tools
  · have hname : t.name = name := by
      have hfs := List.find?_some h
      simpa using hfs
    unfold ToolManager.execute_tool
    rw [h]
    show (⟨m.tools.map (fun u => if u.name = name then (t.execute args).2 else u)⟩ :
        ToolManager).tools.find? (fun u => u.name = name) =
      some ⟨t.name, t.run, (t.run args).2⟩
    have hexec : (t.execute args).2 = ⟨t.name, t.run, (t.run args).2⟩ := rfl
    rw [hexec]
    exact find?_map_replace m.tools name _ hname (by rw [h]; rfl)

/-- Witness for claim C8 at a concrete input: a search tool holding a stale
source list; after execute it holds exactly the new sources. -/
theorem claim8_reset_clears_and_execute_replaces_sources_witness :
    exampleManager.reset_sources.get_last_sources = [] ∧
    (exampleManager.execute_tool "search_course_content"
        [("query", "test")]).2.tools.find?
        (fun u => u.name = "search_course_content") =
      some ⟨searchCapability.name, searchCapability.run,
            (searchCapability.run [("query", "test")]).2⟩ :=
  claim8_reset_clears_and_execute_replaces_sources exampleManager
    "search_course_content" [("query", "test")] searchCapability (by rfl)

/-- Claim C10: assuming every `tool_use` response carries at least one
`ToolUse` block, the message list of every model call alternates roles
starting with `user`, and the call made after `i` completed tool rounds
(0-based call index `i`) has exactly `2 i + 1` messages — in particular it
ends with a user-role message. -/
theorem claim10_messages_alternate_and_grow
    (oracle : Nat → ModelResponse) (query : String) (hist : Option String)
    (tools : List ToolSchema) (tmgr : Option ToolFun) (R i : Nat) (p : ApiCall)
    (hOracle : ∀ n, (oracle n).stop_reason = "tool_use" →
      (oracle n).content.any isToolUse = true)
    (hp : (modelCalls (generate_response oracle query hist tools tmgr R).1)[i]? =
      some p) :
    altUserAssistant p.messages ∧ p.messages.length = 2 * i + 1 := by
  by_cases hcond : (oracle 0).stop_reason = "tool_use" ∧ tmgr.isSome = true ∧ tools ≠ []
  · obtain ⟨hs, htm, hts⟩ := hcond
    cases tmgr with
    | none => simp at htm
    | some tm =>
    cases tools with
    | nil => simp at hts
    | cons t ts =>
    rw [generate_response_chain oracle query hist t ts tm R hs] at hp
    simp only [processToolChain, modelCalls_cons_call] at hp
    match i with
    | 0 =>
        simp only [List.getElem?_cons_zero, Option.some.injEq] at hp
        subst hp
        exact ⟨altUserAssistant_singleton query, rfl⟩
    | i + 1 =>
        rw [List.getElem?_cons_succ] at hp
        have hres := processToolChainAux_messages oracle tm (buildSystemContent hist)
          (t :: ts) R hOracle (R - 1) 1 (oracle 0)
          [⟨"user", MessageContent.str query⟩] 1 (hOracle 0 hs)
          (altUserAssistant_singleton query) rfl i p hp
        rwa [show 1 + i = i + 1 from Nat.add_comm 1 i] at hres
  · rw [generate_response_direct oracle query hist tools tmgr R hcond] at hp
    match i with
    | 0 =>
        simp [modelCalls] at hp
        rw [← hp]
        exact ⟨altUserAssistant_singleton query, rfl⟩
    | i + 1 =>
        simp [modelCalls] at hp

/-- Witness for claim C10 at a concrete input: the second call of a
one-round run has the three-message alternating list. -/
theorem claim10_messages_alternate_and_grow_witness :
    altUserAssistant exampleSecondCall.messages ∧
    exampleSecondCall.messages.length = 2 * 1 + 1 :=
  claim10_messages_alternate_and_grow oracleOneRound "q" none ["search"]
    (some toolManagerStub) 2 1 exampleSecondCall
    (by
      intro n h
      match n with
      | 0 => decide
      | n + 1 => simp [oracleOneRound, finalResponse] at h)
    (by rfl)

end RagChatbot
